import Mathlib

/-!
# Verification of the SpaceX-ETL pipeline core

Shallow embedding of the repository's core logic (`Src/api.py`, `Src/db.py`,
`Src/etl.py`) and proofs of the specification's claims about it.

Modelling decisions:
* A fetched record (a Python dict) becomes a structure with `Option` fields:
  `record.get(k)` returns `None` both when the key is absent and when its
  value is JSON `null`, so an `Option` field captures exactly what the code
  can observe.
* The SQLite database becomes a `DB` structure of three row lists (insertion
  order preserved, as `SELECT` without `ORDER BY` returns rowid order for
  these insert-only tables).
* `INTEGER PRIMARY KEY AUTOINCREMENT` surrogate keys: the next assigned key
  is one more than the maximum key present (starting at 1); the tables are
  insert-only so this coincides with SQLite's behaviour.
* `INSERT OR IGNORE` with a `UNIQUE` column: the insert is skipped exactly
  when some existing row holds the same non-NULL value in that column;
  SQLite's `UNIQUE` never treats two NULLs as equal, so a NULL natural key
  never conflicts.
* `REAL` columns (latitude/longitude) are only ever passed through, never
  computed with, so they are carried as `Rat`.
-/

/-- A rocket record as fetched from the API (`rockets/{id}`); fields read by
`load_dimension_tables` via `r.get(...)`. -/
structure RocketRec where
  name : Option String
  rtype : Option String
  active : Option Bool
deriving DecidableEq, Repr

/-- A launchpad record as fetched from the API (`launchpads/{id}`). -/
structure PadRec where
  name : Option String
  region : Option String
  latitude : Option Rat
  longitude : Option Rat
deriving DecidableEq, Repr

/-- A launch record as fetched from `launches`; fields read by
`extract_unique_ids` and `load_launches` via `launch.get(...)`. -/
structure LaunchRec where
  id : Option String
  name : Option String
  date_utc : Option String
  success : Option Bool
  rocket : Option String
  launchpad : Option String
  details : Option String
deriving DecidableEq, Repr

/-- A row of the `rockets` table (see `create_schema`). -/
structure RocketRow where
  id : Nat
  spacex_id : Option String
  name : Option String
  rtype : Option String
  active : Option Int
deriving DecidableEq, Repr

/-- A row of the `launchpads` table. -/
structure PadRow where
  id : Nat
  spacex_id : Option String
  name : Option String
  region : Option String
  latitude : Option Rat
  longitude : Option Rat
deriving DecidableEq, Repr

/-- A row of the `launches` fact table. -/
structure LaunchRow where
  id : Nat
  spacex_id : Option String
  name : Option String
  date_utc : Option String
  success : Option Int
  rocket_id : Option Nat
  launchpad_id : Option Nat
  details : Option String
deriving DecidableEq, Repr

/-- The warehouse state: the three tables created by `create_schema`. -/
structure DB where
  rockets : List RocketRow
  launchpads : List PadRow
  launches : List LaunchRow
deriving DecidableEq, Repr

/-- The empty warehouse (fresh database file). -/
def DB.empty : DB := ⟨[], [], []⟩

/-- Model of `create_schema`: `CREATE TABLE IF NOT EXISTS` for each of the three
tables; it never alters existing table contents, so on the state model it is
the identity. -/
def create_schema (db : DB) : DB := db

/-- Next `AUTOINCREMENT` surrogate key for a list of already-assigned keys:
one more than the largest key in use, 1 for an empty table. -/
def nextKey (ids : List Nat) : Nat := ids.foldr max 0 + 1

section DimGeneric

variable {ρ κ : Type}

/-- One `INSERT OR IGNORE` into a dimension table with natural-key column
`sid`: skipped iff a row with the same (non-NULL) natural key `s` exists,
otherwise the row built by `mk` from the current table is appended. -/
def dimInsert (sid : ρ → Option String) (mk : List ρ → ρ) (tbl : List ρ)
    (s : String) : List ρ :=
  if tbl.any fun row => sid row = some s then tbl else tbl ++ [mk tbl]

/-- The per-dimension insertion loop of `load_dimension_tables`: fold the
fetched map (insertion-ordered association list keyed by external id) over
`dimInsert`. -/
def dimLoad (sid : ρ → Option String) (mk : List ρ → String → κ → ρ)
    (tbl : List ρ) (m : List (String × κ)) : List ρ :=
  m.foldl (fun t p => dimInsert sid (fun t0 => mk t0 p.1 p.2) t p.1) tbl

end DimGeneric

/-- Normalisation of a boolean-like attribute by `1 if r.get("active") else 0`:
Python truthiness of an optional boolean. -/
def activeToInt (a : Option Bool) : Int := if a = some true then 1 else 0

/-- Row built for one rocket insert in `load_dimension_tables`:
`(spacex_id, r.get("name"), r.get("type"), 1 if r.get("active") else 0)`. -/
def mkRocketRow (tbl : List RocketRow) (s : String) (r : RocketRec) : RocketRow :=
  { id := nextKey (tbl.map RocketRow.id), spacex_id := some s,
    name := r.name, rtype := r.rtype, active := some (activeToInt r.active) }

/-- Row built for one launchpad insert in `load_dimension_tables`. -/
def mkPadRow (tbl : List PadRow) (s : String) (p : PadRec) : PadRow :=
  { id := nextKey (tbl.map PadRow.id), spacex_id := some s,
    name := p.name, region := p.region,
    latitude := p.latitude, longitude := p.longitude }

/-- The read-back `{row[1]: row[0] for row in cur.fetchall()}`: a Python dict
comprehension over `(id, spacex_id)` pairs, later pairs overwriting earlier
ones; `.get k` on the resulting dict. -/
def readKeyMap (rows : List (Option String × Nat)) (k : Option String) :
    Option Nat :=
  ((rows.filter fun p => p.1 = k).getLast?).map Prod.snd

/-- The `rocket_id_map` read back from the full `rockets` table. -/
def rocketKeyMap (tbl : List RocketRow) : Option String → Option Nat :=
  readKeyMap (tbl.map fun row => (row.spacex_id, row.id))

/-- The `launchpad_id_map` read back from the full `launchpads` table. -/
def padKeyMap (tbl : List PadRow) : Option String → Option Nat :=
  readKeyMap (tbl.map fun row => (row.spacex_id, row.id))

/-- Model of `load_dimension_tables`: insert-or-ignore every fetched rocket and
launchpad, then read back the full `(spacex_id -> id)` mapping of each
dimension table. Returns the new state and the two key maps. -/
def load_dimension_tables (db : DB) (rockets_map : List (String × RocketRec))
    (launchpads_map : List (String × PadRec)) :
    DB × (Option String → Option Nat) × (Option String → Option Nat) :=
  let rtbl := dimLoad RocketRow.spacex_id mkRocketRow db.rockets rockets_map
  let ptbl := dimLoad PadRow.spacex_id mkPadRow db.launchpads launchpads_map
  ({ db with rockets := rtbl, launchpads := ptbl },
   rocketKeyMap rtbl, padKeyMap ptbl)

/-- The stored `success_int`: `None` if `launch.get("success")` is `None`, else
`1 if success_val else 0`. -/
def successToStored (s : Option Bool) : Option Int :=
  match s with
  | none => none
  | some b => some (if b then 1 else 0)

/-- The `launches` row built for one fact: natural key from `launch.get("id")`,
foreign keys from `rocket_id_map.get` / `launchpad_id_map.get` (possibly
`None`), tri-state `success`. -/
def mkLaunchRow (rmap pmap : Option String → Option Nat) (tbl : List LaunchRow)
    (l : LaunchRec) : LaunchRow :=
  { id := nextKey (tbl.map LaunchRow.id), spacex_id := l.id,
    name := l.name, date_utc := l.date_utc,
    success := successToStored l.success,
    rocket_id := rmap l.rocket, launchpad_id := pmap l.launchpad,
    details := l.details }

/-- One `INSERT OR IGNORE INTO launches`: skipped iff the fact's natural id
is non-NULL and already present; a NULL natural id never conflicts with the
`UNIQUE` constraint, so the row is always inserted. -/
def insertLaunch (rmap pmap : Option String → Option Nat) (tbl : List LaunchRow)
    (l : LaunchRec) : List LaunchRow :=
  match l.id with
  | some s =>
      if tbl.any fun row => row.spacex_id = some s then tbl
      else tbl ++ [mkLaunchRow rmap pmap tbl l]
  | none => tbl ++ [mkLaunchRow rmap pmap tbl l]

/-- The insertion loop of `load_launches` over the fact list. -/
def loadLaunchList (rmap pmap : Option String → Option Nat)
    (tbl : List LaunchRow) (launches : List LaunchRec) : List LaunchRow :=
  launches.foldl (insertLaunch rmap pmap) tbl

/-- Model of `load_launches`: insert every fact row with resolved foreign keys; only
the `launches` table is written. -/
def load_launches (db : DB) (launches : List LaunchRec)
    (rmap pmap : Option String → Option Nat) : DB :=
  { db with launches := loadLaunchList rmap pmap db.launches launches }

/-- The load phase of `run_etl`: `create_schema`, then
`load_dimension_tables`, then `load_launches` with the returned key maps. -/
def run_load (db : DB) (launches : List LaunchRec)
    (rockets_map : List (String × RocketRec))
    (launchpads_map : List (String × PadRec)) : DB :=
  let db1 := create_schema db
  let res := load_dimension_tables db1 rockets_map launchpads_map
  load_launches res.1 launches res.2.1 res.2.2

/-- Truthiness test of `extract_unique_ids`: it adds `launch.get(field)` to the field's set iff the
value is truthy: a present, non-null, non-empty string. -/
def truthyId (v : Option String) : Option String :=
  match v with
  | some s => if s = "" then none else some s
  | none => none

/-- Model of `extract_unique_ids`: the set of truthy `rocket` ids and the set of
truthy `launchpad` ids occurring in the fact list. -/
def extract_unique_ids (launches : List LaunchRec) :
    Finset String × Finset String :=
  ((launches.filterMap fun l => truthyId l.rocket).toFinset,
   (launches.filterMap fun l => truthyId l.launchpad).toFinset)

/-! ## Generic lemmas about the dimension insertion loop -/

section DimLemmas

variable {ρ κ : Type} {sid : ρ → Option String} {mk : List ρ → String → κ → ρ}

lemma dimLoad_nil (tbl : List ρ) : dimLoad sid mk tbl [] = tbl := rfl

lemma dimLoad_cons (tbl : List ρ) (p : String × κ) (rest : List (String × κ)) :
    dimLoad sid mk tbl (p :: rest) =
      dimLoad sid mk (dimInsert sid (fun t0 => mk t0 p.1 p.2) tbl p.1) rest := rfl

lemma dimInsert_skip {tbl : List ρ} {s : String} (mkf : List ρ → ρ)
    (h : ∃ row ∈ tbl, sid row = some s) :
    dimInsert sid mkf tbl s = tbl := by
  simp only [dimInsert, if_pos, List.any_eq_true, decide_eq_true_eq]
  rw [if_pos]
  simpa using h

lemma dimInsert_ins {tbl : List ρ} {s : String} (mkf : List ρ → ρ)
    (h : ∀ row ∈ tbl, sid row ≠ some s) :
    dimInsert sid mkf tbl s = tbl ++ [mkf tbl] := by
  simp only [dimInsert]
  rw [if_neg]
  simp only [List.any_eq_true, decide_eq_true_eq, not_exists]
  exact fun row hrow => h row hrow.1 hrow.2

lemma dimLoad_append (hsid : ∀ t s r, sid (mk t s r) = some s) :
    ∀ (m : List (String × κ)) (tbl : List ρ),
      ∃ new, dimLoad sid mk tbl m = tbl ++ new ∧
        ∀ row ∈ new, ∃ s, sid row = some s ∧ ∀ old ∈ tbl, sid old ≠ some s := by
  intro m
  induction m with
  | nil => exact fun tbl => ⟨[], by simp [dimLoad_nil]⟩
  | cons p rest ih =>
    intro tbl
    by_cases hc : ∃ row ∈ tbl, sid row = some p.1
    · rw [dimLoad_cons, dimInsert_skip _ hc]
      obtain ⟨new, heq, hnew⟩ := ih tbl
      exact ⟨new, heq, hnew⟩
    · push_neg at hc
      rw [dimLoad_cons, dimInsert_ins _ hc]
      obtain ⟨new, heq, hnew⟩ := ih (tbl ++ [mk tbl p.1 p.2])
      refine ⟨mk tbl p.1 p.2 :: new, by rw [heq]; simp, ?_⟩
      intro row hrow
      rcases List.mem_cons.1 hrow with h1 | h1
      · exact ⟨p.1, by rw [h1]; exact hsid .., fun old hold => hc old hold⟩
      · obtain ⟨s, hs, hfresh⟩ := hnew row h1
        exact ⟨s, hs, fun old hold => hfresh old (by simp [hold])⟩

lemma dimLoad_mem (hsid : ∀ t s r, sid (mk t s r) = some s)
    {m : List (String × κ)} {tbl : List ρ} {row : ρ} (h : row ∈ tbl) :
    row ∈ dimLoad sid mk tbl m := by
  obtain ⟨new, heq, -⟩ := dimLoad_append hsid m tbl
  rw [heq]
  exact List.mem_append_left _ h

lemma dimLoad_covers (hsid : ∀ t s r, sid (mk t s r) = some s) :
    ∀ (m : List (String × κ)) (tbl : List ρ) (s : String) (r : κ),
      (s, r) ∈ m → ∃ row ∈ dimLoad sid mk tbl m, sid row = some s := by
  intro m
  induction m with
  | nil => simp
  | cons p rest ih =>
    intro tbl s r hmem
    rcases List.mem_cons.1 hmem with h1 | h1
    · have hstep : ∃ row ∈ dimInsert sid (fun t0 => mk t0 p.1 p.2) tbl p.1,
          sid row = some p.1 := by
        by_cases hc : ∃ row ∈ tbl, sid row = some p.1
        · rw [dimInsert_skip _ hc]; exact hc
        · push_neg at hc
          rw [dimInsert_ins _ hc]
          exact ⟨mk tbl p.1 p.2, by simp, hsid ..⟩
      obtain ⟨row, hrmem, hrs⟩ := hstep
      rw [dimLoad_cons]
      refine ⟨row, dimLoad_mem hsid hrmem, ?_⟩
      rw [hrs]
      have : s = p.1 := by rw [← h1]
      rw [this]
    · rw [dimLoad_cons]
      exact ih _ s r h1

lemma dimLoad_absorb :
    ∀ (m : List (String × κ)) (tbl : List ρ),
      (∀ p ∈ m, ∃ row ∈ tbl, sid row = some p.1) →
      dimLoad sid mk tbl m = tbl := by
  intro m
  induction m with
  | nil => exact fun tbl _ => rfl
  | cons p rest ih =>
    intro tbl h
    rw [dimLoad_cons, dimInsert_skip _ (h p (List.mem_cons_self ..))]
    exact ih tbl fun q hq => h q (List.mem_cons_of_mem _ hq)

lemma dimLoad_noNull (hsid : ∀ t s r, sid (mk t s r) = some s)
    {m : List (String × κ)} {tbl : List ρ}
    (h : ∀ row ∈ tbl, sid row ≠ none) :
    ∀ row ∈ dimLoad sid mk tbl m, sid row ≠ none := by
  obtain ⟨new, heq, hnew⟩ := dimLoad_append hsid m tbl
  rw [heq]
  intro row hrow
  rcases List.mem_append.1 hrow with h1 | h1
  · exact h row h1
  · obtain ⟨s, hs, -⟩ := hnew row h1
    simp [hs]

lemma dimLoad_nodupSid (hsid : ∀ t s r, sid (mk t s r) = some s) :
    ∀ (m : List (String × κ)) (tbl : List ρ),
      (tbl.filterMap sid).Nodup → ((dimLoad sid mk tbl m).filterMap sid).Nodup := by
  intro m
  induction m with
  | nil => exact fun tbl h => h
  | cons p rest ih =>
    intro tbl h
    rw [dimLoad_cons]
    by_cases hc : ∃ row ∈ tbl, sid row = some p.1
    · rw [dimInsert_skip _ hc]; exact ih tbl h
    · push_neg at hc
      rw [dimInsert_ins _ hc]
      refine ih _ ?_
      rw [List.filterMap_append]
      simp only [List.filterMap, hsid]
      refine List.Nodup.append h (by simp) ?_
      intro a ha hb
      have hb' : a = p.1 := by simpa using hb
      obtain ⟨row, hrow, hrs⟩ := List.mem_filterMap.1 ha
      exact hc row hrow (by rw [hrs, hb'])

end DimLemmas

/-! ## Lemmas about the read-back key maps -/

lemma readKeyMap_isSome_of_mem {rows : List (Option String × Nat)}
    {k : Option String} {i : Nat} (h : (k, i) ∈ rows) :
    (readKeyMap rows k).isSome := by
  have hmem : (k, i) ∈ rows.filter fun p => p.1 = k := by
    simp [List.mem_filter, h]
  have hne := List.ne_nil_of_mem hmem
  rw [readKeyMap, List.getLast?_eq_getLast _ hne]
  rfl

lemma readKeyMap_none_of_noNull {rows : List (Option String × Nat)}
    (h : ∀ p ∈ rows, p.1 ≠ none) : readKeyMap rows none = none := by
  have : (rows.filter fun p => p.1 = none) = [] := by
    rw [List.filter_eq_nil_iff]
    intro p hp
    simpa using h p hp
  rw [readKeyMap, this]
  rfl

lemma readKeyMap_eq_of_mem_nodup :
    ∀ {rows : List (Option String × Nat)} {s : String} {i : Nat},
      (some s, i) ∈ rows → (rows.filterMap Prod.fst).Nodup →
      readKeyMap rows (some s) = some i := by
  intro rows
  induction rows with
  | nil => intro s i h; exact absurd h (List.not_mem_nil _)
  | cons p rest ih =>
    intro s i hmem hnd
    rcases List.mem_cons.1 hmem with h1 | h1
    · have hrest : (rest.filter fun q => q.1 = some s) = [] := by
        rw [List.filter_eq_nil_iff]
        intro q hq
        simp only [decide_eq_true_eq]
        intro hq1
        have hs_mem : s ∈ rest.filterMap Prod.fst :=
          List.mem_filterMap.2 ⟨q, hq, hq1⟩
        rw [List.filterMap_cons, ← h1] at hnd
        simp only [Prod.fst] at hnd
        exact (List.nodup_cons.1 hnd).1 hs_mem
      rw [readKeyMap, List.filter_cons_of_pos (by simp [← h1]), hrest]
      simp [← h1]
    · by_cases hp : p.1 = some s
      · exfalso
        have hs_mem : s ∈ rest.filterMap Prod.fst :=
          List.mem_filterMap.2 ⟨(some s, i), h1, rfl⟩
        rw [List.filterMap_cons, hp] at hnd
        exact (List.nodup_cons.1 hnd).1 hs_mem
      · have hnd' : (rest.filterMap Prod.fst).Nodup := by
          rw [List.filterMap_cons] at hnd
          cases hq : p.1 with
          | none => rwa [hq] at hnd
          | some a => rw [hq] at hnd; exact (List.nodup_cons.1 hnd).2
        rw [readKeyMap, List.filter_cons_of_neg (by simpa using hp)]
        exact ih h1 hnd'

/-! ## Lemmas about the fact insertion loop -/

lemma loadLaunchList_nil (rmap pmap : Option String → Option Nat)
    (tbl : List LaunchRow) : loadLaunchList rmap pmap tbl [] = tbl := rfl

lemma loadLaunchList_cons (rmap pmap : Option String → Option Nat)
    (tbl : List LaunchRow) (l : LaunchRec) (rest : List LaunchRec) :
    loadLaunchList rmap pmap tbl (l :: rest) =
      loadLaunchList rmap pmap (insertLaunch rmap pmap tbl l) rest := rfl

lemma insertLaunch_skip {rmap pmap : Option String → Option Nat}
    {tbl : List LaunchRow} {l : LaunchRec} {s : String} (hid : l.id = some s)
    (h : ∃ row ∈ tbl, row.spacex_id = some s) :
    insertLaunch rmap pmap tbl l = tbl := by
  simp only [insertLaunch, hid]
  rw [if_pos]
  simpa using h

lemma insertLaunch_ins_of_some {rmap pmap : Option String → Option Nat}
    {tbl : List LaunchRow} {l : LaunchRec} {s : String} (hid : l.id = some s)
    (h : ∀ row ∈ tbl, row.spacex_id ≠ some s) :
    insertLaunch rmap pmap tbl l = tbl ++ [mkLaunchRow rmap pmap tbl l] := by
  simp only [insertLaunch, hid]
  rw [if_neg]
  simp only [List.any_eq_true, decide_eq_true_eq, not_exists]
  exact fun row hrow => h row hrow.1 hrow.2

lemma insertLaunch_ins_of_none {rmap pmap : Option String → Option Nat}
    {tbl : List LaunchRow} {l : LaunchRec} (hid : l.id = none) :
    insertLaunch rmap pmap tbl l = tbl ++ [mkLaunchRow rmap pmap tbl l] := by
  simp only [insertLaunch, hid]

lemma loadLaunchList_append (rmap pmap : Option String → Option Nat) :
    ∀ (L : List LaunchRec) (tbl : List LaunchRow),
      ∃ new, loadLaunchList rmap pmap tbl L = tbl ++ new := by
  intro L
  induction L with
  | nil => exact fun tbl => ⟨[], by simp [loadLaunchList_nil]⟩
  | cons l rest ih =>
    intro tbl
    rw [loadLaunchList_cons]
    rcases hl : l.id with _ | s
    · obtain ⟨new, heq⟩ := ih (tbl ++ [mkLaunchRow rmap pmap tbl l])
      exact ⟨mkLaunchRow rmap pmap tbl l :: new,
        by rw [insertLaunch_ins_of_none hl, heq]; simp⟩
    · by_cases hc : ∃ row ∈ tbl, row.spacex_id = some s
      · rw [insertLaunch_skip hl hc]; exact ih tbl
      · push_neg at hc
        obtain ⟨new, heq⟩ := ih (tbl ++ [mkLaunchRow rmap pmap tbl l])
        exact ⟨mkLaunchRow rmap pmap tbl l :: new,
          by rw [insertLaunch_ins_of_some hl hc, heq]; simp⟩

lemma loadLaunchList_mem {rmap pmap : Option String → Option Nat}
    {L : List LaunchRec} {tbl : List LaunchRow} {row : LaunchRow}
    (h : row ∈ tbl) : row ∈ loadLaunchList rmap pmap tbl L := by
  obtain ⟨new, heq⟩ := loadLaunchList_append rmap pmap L tbl
  rw [heq]
  exact List.mem_append_left _ h

lemma loadLaunchList_covers (rmap pmap : Option String → Option Nat) :
    ∀ (L : List LaunchRec) (tbl : List LaunchRow) (l : LaunchRec) (s : String),
      l ∈ L → l.id = some s →
      ∃ row ∈ loadLaunchList rmap pmap tbl L, row.spacex_id = some s := by
  intro L
  induction L with
  | nil => simp
  | cons l0 rest ih =>
    intro tbl l s hmem hid
    rcases List.mem_cons.1 hmem with h1 | h1
    · have hstep : ∃ row ∈ insertLaunch rmap pmap tbl l0,
          row.spacex_id = some s := by
        by_cases hc : ∃ row ∈ tbl, row.spacex_id = some s
        · obtain ⟨row, hr1, hr2⟩ := hc
          rcases hl0 : l0.id with _ | s0
          · exact ⟨row, by rw [insertLaunch_ins_of_none hl0]; simp [hr1], hr2⟩
          · by_cases hc0 : ∃ r0 ∈ tbl, r0.spacex_id = some s0
            · exact ⟨row, by rw [insertLaunch_skip hl0 hc0]; exact hr1, hr2⟩
            · push_neg at hc0
              exact ⟨row, by rw [insertLaunch_ins_of_some hl0 hc0]; simp [hr1], hr2⟩
        · push_neg at hc
          have hl0 : l0.id = some s := by rw [← h1]; exact hid
          have hc' : ∀ row ∈ tbl, row.spacex_id ≠ some s := hc
          refine ⟨mkLaunchRow rmap pmap tbl l0, ?_, ?_⟩
          · rw [insertLaunch_ins_of_some hl0 hc']; simp
          · rw [mkLaunchRow, hl0]
      obtain ⟨row, hr1, hr2⟩ := hstep
      rw [loadLaunchList_cons]
      exact ⟨row, loadLaunchList_mem hr1, hr2⟩
    · rw [loadLaunchList_cons]
      exact ih _ l s h1 hid

lemma loadLaunchList_absorb {rmap pmap : Option String → Option Nat} :
    ∀ (L : List LaunchRec) (tbl : List LaunchRow),
      (∀ l ∈ L, ∃ s, l.id = some s ∧ ∃ row ∈ tbl, row.spacex_id = some s) →
      loadLaunchList rmap pmap tbl L = tbl := by
  intro L
  induction L with
  | nil => exact fun tbl _ => rfl
  | cons l rest ih =>
    intro tbl h
    obtain ⟨s, hid, hrow⟩ := h l (List.mem_cons_self ..)
    rw [loadLaunchList_cons, insertLaunch_skip hid hrow]
    exact ih tbl fun q hq => h q (List.mem_cons_of_mem _ hq)

/-! ## The fetch layer (`Src/api.py`)

`get_json` performs `requests.get(url, timeout=20)` followed by
`resp.raise_for_status()` and `resp.json()`. Every network failure, timeout
or non-success HTTP status surfaces as a `requests.RequestException`, which
the code turns into a fatal exit carrying the offending URL; the spec's
taxonomy calls this `TransportError`. A payload of the wrong shape raises
`ValueError` in `extract_all_launches`; the taxonomy calls this
`FormatError`. The transport is modelled by an oracle from endpoint to
`HttpOutcome`. -/

/-- A JSON value as returned by `resp.json()`. -/
inductive JValue where
  | null : JValue
  | bool (b : Bool) : JValue
  | num (q : Rat) : JValue
  | str (s : String) : JValue
  | arr (elems : List JValue) : JValue
  | obj (fields : List (String × JValue)) : JValue

/-- Outcome of one HTTP GET: either a `requests.RequestException`
(connection failure, timeout, or non-2xx status via `raise_for_status`)
with its message, or a decoded JSON body. -/
inductive HttpOutcome where
  | requestException (msg : String) : HttpOutcome
  | ok (body : JValue) : HttpOutcome

/-- The spec's error taxonomy for the fetch layer. -/
inductive FetchError where
  | transport (msg : String) : FetchError
  | format (msg : String) : FetchError

/-- The module constant BASE_URL of `Src/api.py`. -/
def BASE_URL : String := "https://api.spacexdata.com/v4"

/-- The URL built by `get_json`: `f"{BASE_URL}/{endpoint.lstrip('/')}"`. -/
def apiUrl (endpoint : String) : String :=
  BASE_URL ++ "/" ++ endpoint.dropWhile (fun c => c = '/')

/-- Model of `get_json`: propagate the body on success; on any
`requests.RequestException` abort the run with a transport error naming the
offending URL. -/
def get_json (oracle : String → HttpOutcome) (endpoint : String) :
    Except FetchError JValue :=
  match oracle endpoint with
  | .requestException msg =>
      .error (.transport ("Error fetching " ++ apiUrl endpoint ++ ": " ++ msg))
  | .ok body => .ok body

/-- Model of `extract_all_launches`: fetch `launches` and require a list payload,
else `ValueError("Unexpected launches payload")`. -/
def extract_all_launches (oracle : String → HttpOutcome) :
    Except FetchError (List JValue) :=
  match get_json oracle "launches" with
  | .error e => .error e
  | .ok (JValue.arr elems) => .ok elems
  | .ok _ => .error (.format "Unexpected launches payload")

/-- Model of `fetch_rockets`: one `get_json` per unique rocket id, in order; the
first failure aborts the whole loop with no partial result. -/
def fetch_rockets (oracle : String → HttpOutcome) :
    List String → Except FetchError (List (String × JValue))
  | [] => .ok []
  | rid :: rest =>
      match get_json oracle ("rockets/" ++ rid) with
      | .error e => .error e
      | .ok v =>
          match fetch_rockets oracle rest with
          | .error e => .error e
          | .ok tail => .ok ((rid, v) :: tail)

/-- Model of `fetch_launchpads`: same shape as `fetch_rockets`. -/
def fetch_launchpads (oracle : String → HttpOutcome) :
    List String → Except FetchError (List (String × JValue))
  | [] => .ok []
  | pid :: rest =>
      match get_json oracle ("launchpads/" ++ pid) with
      | .error e => .error e
      | .ok v =>
          match fetch_launchpads oracle rest with
          | .error e => .error e
          | .ok tail => .ok ((pid, v) :: tail)

/-- Whether an `Except` result is an error. -/
def isError {ε α : Type} : Except ε α → Bool
  | .error _ => true
  | .ok _ => false

/-! ## The pipeline driver's resource discipline (`Src/etl.py`)

`run_etl`'s load phase is

    conn = db.get_connection()
    try:
        db.create_schema(conn)
        ... load_dimension_tables ...
        ... load_launches ...
    finally:
        conn.close()

Each stage may raise (`sqlite3` storage faults); the `finally` block runs on
every exit path. The three abstract fault flags say whether each stage
raises; a raising stage prevents the later stages from being attempted. -/

/-- Observable resource/stage events of the load phase. -/
inductive Event where
  | openConn : Event
  | schemaDone : Event
  | dimsDone : Event
  | factsDone : Event
  | closeConn : Event
deriving DecidableEq, Repr

/-- Which load stages raise a storage fault in this run. -/
structure Faults where
  schemaFault : Bool
  dimsFault : Bool
  factsFault : Bool
deriving DecidableEq, Repr

/-- Events of the `try` body: stages run in order and a raising stage stops
the body (its completion event is not emitted, nor any later stage's). -/
def tryBodyEvents (f : Faults) : List Event :=
  if f.schemaFault then []
  else Event.schemaDone ::
    (if f.dimsFault then []
     else Event.dimsDone ::
       (if f.factsFault then [] else [Event.factsDone]))

/-- The load phase's event trace: the connection is opened once before the
`try` body, and the `finally` clause closes it on every exit path —
normal completion or a raise in any stage. -/
def run_etl_trace (f : Faults) : List Event :=
  Event.openConn :: (tryBodyEvents f ++ [Event.closeConn])

/-- Whether the load phase as a whole succeeds (no stage raised). -/
def run_etl_ok (f : Faults) : Bool :=
  !(f.schemaFault || f.dimsFault || f.factsFault)

/-! ## Claim theorems -/

/-- C10: each loader writes only its own tables — `load_launches` leaves the
`rockets` and `launchpads` tables unchanged, and `load_dimension_tables`
leaves the `launches` table unchanged, for every input. -/
theorem c10_loader_frame (db : DB) (L : List LaunchRec)
    (rmap pmap : Option String → Option Nat)
    (R : List (String × RocketRec)) (P : List (String × PadRec)) :
    (load_launches db L rmap pmap).rockets = db.rockets ∧
    (load_launches db L rmap pmap).launchpads = db.launchpads ∧
    (load_dimension_tables db R P).1.launches = db.launches :=
  ⟨rfl, rfl, rfl⟩

/-- C4: the fact loader preserves the tri-state mission-success attribute:
the stored encoding is injective on the three states, and facts with
success true, success false and success absent load to the pairwise
distinct stored values 1, 0 and NULL — absent is never collapsed into
false. -/
theorem c4_success_tristate :
    (∀ a b : Option Bool, successToStored a = successToStored b ↔ a = b) ∧
    (loadLaunchList (fun _ => none) (fun _ => none) []
        [⟨some "a", none, none, some true, none, none, none⟩,
         ⟨some "b", none, none, some false, none, none, none⟩,
         ⟨some "c", none, none, none, none, none, none⟩]).map LaunchRow.success =
      [some 1, some 0, none] ∧
    List.Pairwise (fun x y => x ≠ y)
      ((loadLaunchList (fun _ => none) (fun _ => none) []
        [⟨some "a", none, none, some true, none, none, none⟩,
         ⟨some "b", none, none, some false, none, none, none⟩,
         ⟨some "c", none, none, none, none, none, none⟩]).map LaunchRow.success) := by
  refine ⟨by decide, by decide, by decide⟩

/-- C8: in the load phase of `run_etl` the storage connection is opened
exactly once, closed exactly once, and the close is the final event on
every exit path — whether schema creation, dimension loading and fact
loading all complete or any of them raises. -/
theorem c8_connection_scoped (f : Faults) :
    (run_etl_trace f).count Event.openConn = 1 ∧
    (run_etl_trace f).count Event.closeConn = 1 ∧
    (run_etl_trace f).getLast? = some Event.closeConn := by
  obtain ⟨s, d, t⟩ := f
  cases s <;> cases d <;> cases t <;> decide

lemma truthyId_eq_some {x : Option String} {v : String} :
    truthyId x = some v ↔ x = some v ∧ v ≠ "" := by
  cases x with
  | none => simp [truthyId]
  | some s =>
      by_cases hs : s = "" <;>
        simp [truthyId, hs] <;> exact fun h => by simp [← h, hs]

/-- C5: identifier extraction returns, per reference field, exactly the set
of values occurring present and non-null/non-empty in some fact; the result
is invariant under permutation of the fact list (so duplicates collapse,
the result being a set), and on the spec's two-fact example it yields
rocket-ids `{"r1"}` and launchpad-ids `{"p1"}`. -/
theorem c5_extract_unique_ids_spec :
    (∀ (L : List LaunchRec) (v : String),
      (v ∈ (extract_unique_ids L).1 ↔ ∃ l ∈ L, l.rocket = some v ∧ v ≠ "") ∧
      (v ∈ (extract_unique_ids L).2 ↔ ∃ l ∈ L, l.launchpad = some v ∧ v ≠ "")) ∧
    (∀ (L L' : List LaunchRec), L.Perm L' →
      extract_unique_ids L = extract_unique_ids L') ∧
    extract_unique_ids
        [⟨none, none, none, none, some "r1", none, none⟩,
         ⟨none, none, none, none, some "r1", some "p1", none⟩] =
      ({"r1"}, {"p1"}) := by
  have hmem : ∀ (L : List LaunchRec) (v : String),
      (v ∈ (extract_unique_ids L).1 ↔ ∃ l ∈ L, l.rocket = some v ∧ v ≠ "") ∧
      (v ∈ (extract_unique_ids L).2 ↔ ∃ l ∈ L, l.launchpad = some v ∧ v ≠ "") := by
    intro L v
    constructor <;>
      simp [extract_unique_ids, List.mem_filterMap, truthyId_eq_some]
  refine ⟨hmem, ?_, by decide⟩
  intro L L' hperm
  have h1 : ∀ (f : LaunchRec → Option String),
      (L.filterMap fun l => truthyId (f l)).toFinset =
      (L'.filterMap fun l => truthyId (f l)).toFinset := by
    intro f
    apply List.toFinset.ext
    intro x
    simp only [List.mem_filterMap]
    exact ⟨fun ⟨a, ha, hfa⟩ => ⟨a, hperm.mem_iff.1 ha, hfa⟩,
           fun ⟨a, ha, hfa⟩ => ⟨a, hperm.mem_iff.2 ha, hfa⟩⟩
  simp only [extract_unique_ids]
  exact Prod.ext (h1 _) (h1 _)

/-- C5 witness: the membership characterisation, permutation invariance and
the concrete example, at concrete inputs. -/
theorem c5_extract_unique_ids_spec_witness :
    ("r1" ∈ (extract_unique_ids
        [⟨none, none, none, none, some "r1", none, none⟩]).1 ↔
      ∃ l ∈ [(⟨none, none, none, none, some "r1", none, none⟩ : LaunchRec)],
        l.rocket = some "r1" ∧ "r1" ≠ "") ∧
    extract_unique_ids
        [⟨none, none, none, none, some "r1", none, none⟩,
         ⟨none, none, none, none, some "r2", none, none⟩] =
      extract_unique_ids
        [⟨none, none, none, none, some "r2", none, none⟩,
         ⟨none, none, none, none, some "r1", none, none⟩] :=
  ⟨(c5_extract_unique_ids_spec.1 _ "r1").1,
   c5_extract_unique_ids_spec.2.1 _ _ (by decide)⟩

/-- C6: a dimension row inserted by the dimension loader stores each
descriptive attribute exactly as fetched — so an attribute missing from the
record is stored as NULL — and the boolean-like `active` flag is normalised
to the canonical two-valued form 0/1 before storage. -/
theorem c6_dimension_attribute_policy (tbl : List RocketRow)
    (ptbl : List PadRow) (s : String) (r : RocketRec) (p : PadRec)
    (hr : ∀ row ∈ tbl, row.spacex_id ≠ some s)
    (hp : ∀ row ∈ ptbl, row.spacex_id ≠ some s) :
    (∃ row, dimInsert RocketRow.spacex_id (fun t0 => mkRocketRow t0 s r) tbl s =
        tbl ++ [row] ∧
      row.name = r.name ∧ row.rtype = r.rtype ∧
      (row.active = some 0 ∨ row.active = some 1) ∧
      (r.name = none → row.name = none) ∧ (r.rtype = none → row.rtype = none)) ∧
    (∃ row, dimInsert PadRow.spacex_id (fun t0 => mkPadRow t0 s p) ptbl s =
        ptbl ++ [row] ∧
      row.name = p.name ∧ row.region = p.region ∧
      row.latitude = p.latitude ∧ row.longitude = p.longitude ∧
      (p.latitude = none → row.latitude = none)) := by
  refine ⟨⟨mkRocketRow tbl s r, dimInsert_ins _ hr, rfl, rfl, ?_, fun h => h, fun h => h⟩,
          ⟨mkPadRow ptbl s p, dimInsert_ins _ hp, rfl, rfl, rfl, rfl, fun h => h⟩⟩
  rw [mkRocketRow]
  simp only [activeToInt]
  by_cases ha : r.active = some true <;> simp [ha]

/-- C6 witness: inserting a rocket and a launchpad record with every
optional attribute missing into empty tables. -/
theorem c6_dimension_attribute_policy_witness :
    ∃ row, dimInsert RocketRow.spacex_id
        (fun t0 => mkRocketRow t0 "r1" ⟨none, none, none⟩) [] "r1" =
        [] ++ [row] ∧
      row.name = (none : Option String) ∧ row.rtype = (none : Option String) ∧
      (row.active = some 0 ∨ row.active = some 1) ∧
      ((none : Option String) = none → row.name = none) ∧
      ((none : Option String) = none → row.rtype = none) :=
  (c6_dimension_attribute_policy [] [] "r1" ⟨none, none, none⟩
    ⟨none, none, none, none⟩ (by simp) (by simp)).1

/-- C9: a fact whose natural id is absent or null is still inserted, with a
NULL natural-key column; because SQLite uniqueness ignores NULLs, loading
such a fact twice produces two rows, while the skip-if-present rule
deduplicates a fact whose non-null natural id is already present. -/
theorem c9_null_natural_id (rmap pmap : Option String → Option Nat)
    (tbl : List LaunchRow) (l : LaunchRec) :
    (l.id = none →
      (insertLaunch rmap pmap (insertLaunch rmap pmap tbl l) l).length =
        tbl.length + 2 ∧
      ∃ r1 r2, insertLaunch rmap pmap (insertLaunch rmap pmap tbl l) l =
          tbl ++ [r1, r2] ∧ r1.spacex_id = none ∧ r2.spacex_id = none) ∧
    (∀ s, l.id = some s → (∃ row ∈ tbl, row.spacex_id = some s) →
      insertLaunch rmap pmap tbl l = tbl) := by
  constructor
  · intro hid
    have h1 := @insertLaunch_ins_of_none rmap pmap tbl l hid
    have h2 :=
      @insertLaunch_ins_of_none rmap pmap (insertLaunch rmap pmap tbl l) l hid
    constructor
    · rw [h2, h1]; simp
    · refine ⟨mkLaunchRow rmap pmap tbl l,
        mkLaunchRow rmap pmap (insertLaunch rmap pmap tbl l) l, ?_, ?_, ?_⟩
      · rw [h2, h1]; simp
      · rw [mkLaunchRow, hid]
      · rw [mkLaunchRow, hid]
  · intro s hid hrow
    exact insertLaunch_skip hid hrow

/-- C9 witness: a null-id fact loaded twice into an empty table yields two
rows, and a fact with non-null id "a" already present is skipped. -/
theorem c9_null_natural_id_witness :
    (insertLaunch (fun _ => none) (fun _ => none)
        (insertLaunch (fun _ => none) (fun _ => none) []
          ⟨none, none, none, none, none, none, none⟩)
        ⟨none, none, none, none, none, none, none⟩).length =
      ([] : List LaunchRow).length + 2 ∧
    insertLaunch (fun _ => none) (fun _ => none)
        [⟨1, some "a", none, none, none, none, none, none⟩]
        ⟨some "a", none, none, none, none, none, none⟩ =
      [⟨1, some "a", none, none, none, none, none, none⟩] :=
  ⟨((c9_null_natural_id (fun _ => none) (fun _ => none) [] _).1 rfl).1,
   (c9_null_natural_id (fun _ => none) (fun _ => none) _ _).2 "a" rfl
     ⟨⟨1, some "a", none, none, none, none, none, none⟩, by simp, rfl⟩⟩

/-- C7: fetching the launches collection fails with a transport error on
network failure, timeout or non-success HTTP status (all surfacing as a
request exception), fails with a format error if the payload is not a
sequence, and any single by-id fetch failure aborts the whole fetch loop
with no partial result. -/
theorem c7_fetch_failure_modes (oracle : String → HttpOutcome) :
    (∀ msg, oracle "launches" = HttpOutcome.requestException msg →
      extract_all_launches oracle =
        Except.error (FetchError.transport
          ("Error fetching " ++ apiUrl "launches" ++ ": " ++ msg))) ∧
    (∀ body, oracle "launches" = HttpOutcome.ok body →
      (∀ elems, body ≠ JValue.arr elems) →
      extract_all_launches oracle =
        Except.error (FetchError.format "Unexpected launches payload")) ∧
    (∀ (ids : List String) (rid : String), rid ∈ ids →
      isError (get_json oracle ("rockets/" ++ rid)) = true →
      isError (fetch_rockets oracle ids) = true) ∧
    (∀ (ids : List String) (pid : String), pid ∈ ids →
      isError (get_json oracle ("launchpads/" ++ pid)) = true →
      isError (fetch_launchpads oracle ids) = true) := by
  refine ⟨?_, ?_, ?_, ?_⟩
  · intro msg h
    rw [extract_all_launches, get_json, h]
  · intro body h hne
    rw [extract_all_launches, get_json, h]
    cases body with
    | arr elems => exact absurd rfl (hne elems)
    | null => rfl
    | bool b => rfl
    | num q => rfl
    | str s => rfl
    | obj fields => rfl
  · intro ids
    induction ids with
    | nil => intro rid h; exact absurd h (List.not_mem_nil _)
    | cons a rest ih =>
      intro rid hmem herr
      rcases List.mem_cons.1 hmem with h1 | h1
      · rw [fetch_rockets]
        subst h1
        cases hg : get_json oracle ("rockets/" ++ rid) with
        | error e => rfl
        | ok v => rw [hg] at herr; exact absurd herr (by simp [isError])
      · rw [fetch_rockets]
        cases hg : get_json oracle ("rockets/" ++ a) with
        | error e => rfl
        | ok v =>
          have := ih rid h1 herr
          cases hf : fetch_rockets oracle rest with
          | error e => rfl
          | ok tail => rw [hf] at this; exact absurd this (by simp [isError])
  · intro ids
    induction ids with
    | nil => intro pid h; exact absurd h (List.not_mem_nil _)
    | cons a rest ih =>
      intro pid hmem herr
      rcases List.mem_cons.1 hmem with h1 | h1
      · rw [fetch_launchpads]
        subst h1
        cases hg : get_json oracle ("launchpads/" ++ pid) with
        | error e => rfl
        | ok v => rw [hg] at herr; exact absurd herr (by simp [isError])
      · rw [fetch_launchpads]
        cases hg : get_json oracle ("launchpads/" ++ a) with
        | error e => rfl
        | ok v =>
          have := ih pid h1 herr
          cases hf : fetch_launchpads oracle rest with
          | error e => rfl
          | ok tail => rw [hf] at this; exact absurd this (by simp [isError])

/-- C7 witness: an oracle that times out on every endpoint makes the
collection fetch fail with a transport error and makes a one-rocket fetch
loop fail. -/
theorem c7_fetch_failure_modes_witness :
    extract_all_launches (fun _ => HttpOutcome.requestException "timeout") =
      Except.error (FetchError.transport
        ("Error fetching " ++ apiUrl "launches" ++ ": " ++ "timeout")) ∧
    isError (fetch_rockets (fun _ => HttpOutcome.requestException "timeout")
      ["r1"]) = true :=
  ⟨(c7_fetch_failure_modes _).1 "timeout" rfl,
   (c7_fetch_failure_modes _).2.2.1 ["r1"] "r1" (by simp) rfl⟩

lemma rocketKeyMap_isSome {tbl : List RocketRow} {row : RocketRow}
    (h : row ∈ tbl) : (rocketKeyMap tbl row.spacex_id).isSome :=
  readKeyMap_isSome_of_mem
    (List.mem_map_of_mem (fun row => (row.spacex_id, row.id)) h)

lemma rocketKeyMap_eq {tbl : List RocketRow} {row : RocketRow} {s : String}
    (hnd : (tbl.filterMap RocketRow.spacex_id).Nodup) (h : row ∈ tbl)
    (hs : row.spacex_id = some s) : rocketKeyMap tbl (some s) = some row.id := by
  apply readKeyMap_eq_of_mem_nodup
  · exact List.mem_map.2 ⟨row, h, by rw [hs]⟩
  · rw [List.filterMap_map]
    exact hnd

lemma padKeyMap_isSome {tbl : List PadRow} {row : PadRow}
    (h : row ∈ tbl) : (padKeyMap tbl row.spacex_id).isSome :=
  readKeyMap_isSome_of_mem
    (List.mem_map_of_mem (fun row => (row.spacex_id, row.id)) h)

lemma padKeyMap_eq {tbl : List PadRow} {row : PadRow} {s : String}
    (hnd : (tbl.filterMap PadRow.spacex_id).Nodup) (h : row ∈ tbl)
    (hs : row.spacex_id = some s) : padKeyMap tbl (some s) = some row.id := by
  apply readKeyMap_eq_of_mem_nodup
  · exact List.mem_map.2 ⟨row, h, by rw [hs]⟩
  · rw [List.filterMap_map]
    exact hnd

lemma mkRocketRow_sid : ∀ (t : List RocketRow) (s : String) (r : RocketRec),
    RocketRow.spacex_id (mkRocketRow t s r) = some s := fun _ _ _ => rfl

lemma mkPadRow_sid : ∀ (t : List PadRow) (s : String) (p : PadRec),
    PadRow.spacex_id (mkPadRow t s p) = some s := fun _ _ _ => rfl

/-- C3: on any dimension-table state whose natural keys satisfy the schema's
uniqueness constraint, the dimension loader returns key mappings that cover
every row now present in each table (rows from previous runs included, each
non-null external id resolving to that row's surrogate key), covers every
id of the fetched maps, and only ever appends rows whose external id was
not already present — existing rows are neither re-inserted nor altered. -/
theorem c3_dimension_reresolution (db : DB)
    (R : List (String × RocketRec)) (P : List (String × PadRec))
    (hnr : (db.rockets.filterMap RocketRow.spacex_id).Nodup)
    (hnp : (db.launchpads.filterMap PadRow.spacex_id).Nodup) :
    (∀ row ∈ (load_dimension_tables db R P).1.rockets,
      ((load_dimension_tables db R P).2.1 row.spacex_id).isSome) ∧
    (∀ row ∈ (load_dimension_tables db R P).1.rockets, ∀ s,
      row.spacex_id = some s →
      (load_dimension_tables db R P).2.1 (some s) = some row.id) ∧
    (∀ row ∈ (load_dimension_tables db R P).1.launchpads,
      ((load_dimension_tables db R P).2.2 row.spacex_id).isSome) ∧
    (∀ row ∈ (load_dimension_tables db R P).1.launchpads, ∀ s,
      row.spacex_id = some s →
      (load_dimension_tables db R P).2.2 (some s) = some row.id) ∧
    (∀ p ∈ R, ((load_dimension_tables db R P).2.1 (some p.1)).isSome) ∧
    (∀ p ∈ P, ((load_dimension_tables db R P).2.2 (some p.1)).isSome) ∧
    (∃ newr, (load_dimension_tables db R P).1.rockets = db.rockets ++ newr ∧
      ∀ row ∈ newr, ∃ s, row.spacex_id = some s ∧
        ∀ old ∈ db.rockets, old.spacex_id ≠ some s) ∧
    (∃ newp, (load_dimension_tables db R P).1.launchpads =
        db.launchpads ++ newp ∧
      ∀ row ∈ newp, ∃ s, row.spacex_id = some s ∧
        ∀ old ∈ db.launchpads, old.spacex_id ≠ some s) := by
  have hndr : ((dimLoad RocketRow.spacex_id mkRocketRow db.rockets
      R).filterMap RocketRow.spacex_id).Nodup :=
    dimLoad_nodupSid mkRocketRow_sid R db.rockets hnr
  have hndp : ((dimLoad PadRow.spacex_id mkPadRow db.launchpads
      P).filterMap PadRow.spacex_id).Nodup :=
    dimLoad_nodupSid mkPadRow_sid P db.launchpads hnp
  refine ⟨fun row h => rocketKeyMap_isSome h,
          fun row h s hs => rocketKeyMap_eq hndr h hs,
          fun row h => padKeyMap_isSome h,
          fun row h s hs => padKeyMap_eq hndp h hs,
          ?_, ?_, ?_, ?_⟩
  · intro p hp
    obtain ⟨row, hrow, hs⟩ :=
      dimLoad_covers mkRocketRow_sid R db.rockets p.1 p.2 (by simpa using hp)
    have := rocketKeyMap_isSome hrow
    rwa [hs] at this
  · intro p hp
    obtain ⟨row, hrow, hs⟩ :=
      dimLoad_covers mkPadRow_sid P db.launchpads p.1 p.2 (by simpa using hp)
    have := padKeyMap_isSome hrow
    rwa [hs] at this
  · exact dimLoad_append mkRocketRow_sid R db.rockets
  · exact dimLoad_append mkPadRow_sid P db.launchpads

/-- C3 witness: with a pre-existing rocket row "r1" -> 1 and only "r2"
fetched, the returned mapping contains both "r1" -> 1 and "r2" -> 2, and the
pre-existing row was not re-inserted. -/
theorem c3_dimension_reresolution_witness :
    (load_dimension_tables ⟨[⟨1, some "r1", none, none, some 1⟩], [], []⟩
        [("r2", ⟨none, none, none⟩)] []).2.1 (some "r1") = some 1 ∧
    (load_dimension_tables ⟨[⟨1, some "r1", none, none, some 1⟩], [], []⟩
        [("r2", ⟨none, none, none⟩)] []).2.1 (some "r2") = some 2 ∧
    (∃ newr, (load_dimension_tables ⟨[⟨1, some "r1", none, none, some 1⟩],
        [], []⟩ [("r2", ⟨none, none, none⟩)] []).1.rockets =
      [⟨1, some "r1", none, none, some 1⟩] ++ newr ∧
      ∀ row ∈ newr, ∃ s, row.spacex_id = some s ∧
        ∀ old ∈ [(⟨1, some "r1", none, none, some 1⟩ : RocketRow)],
          old.spacex_id ≠ some s) :=
  ⟨(c3_dimension_reresolution ⟨[⟨1, some "r1", none, none, some 1⟩], [], []⟩
      [("r2", ⟨none, none, none⟩)] [] (by decide) (by decide)).2.1
      ⟨1, some "r1", none, none, some 1⟩ (by decide) "r1" rfl,
   (c3_dimension_reresolution ⟨[⟨1, some "r1", none, none, some 1⟩], [], []⟩
      [("r2", ⟨none, none, none⟩)] [] (by decide) (by decide)).2.1
      ⟨2, some "r2", none, none, some 0⟩ (by decide) "r2" rfl,
   (c3_dimension_reresolution ⟨[⟨1, some "r1", none, none, some 1⟩], [], []⟩
      [("r2", ⟨none, none, none⟩)] [] (by decide) (by decide)).2.2.2.2.2.2.1⟩

lemma rocketKeyMap_none {tbl : List RocketRow}
    (h : ∀ row ∈ tbl, row.spacex_id ≠ none) : rocketKeyMap tbl none = none := by
  apply readKeyMap_none_of_noNull
  intro q hq
  obtain ⟨row, hrow, rfl⟩ := List.mem_map.1 hq
  exact h row hrow

lemma padKeyMap_none {tbl : List PadRow}
    (h : ∀ row ∈ tbl, row.spacex_id ≠ none) : padKeyMap tbl none = none := by
  apply readKeyMap_none_of_noNull
  intro q hq
  obtain ⟨row, hrow, rfl⟩ := List.mem_map.1 hq
  exact h row hrow

/-- C1: against the key maps produced by the dimension loader, a fact's
foreign references resolve as the claim states — a null/absent reference
stores NULL; a reference to a fetched dimension id stores exactly that
dimension row's surrogate key; a reference not found in the mapping stores
NULL (the stored column always being the mapping's lookup result); and the
fact row is inserted whenever its natural key does not conflict, never
failing on an orphan reference. -/
theorem c1_fact_fk_resolution (db : DB)
    (R : List (String × RocketRec)) (P : List (String × PadRec))
    (hr0 : ∀ row ∈ db.rockets, row.spacex_id ≠ none)
    (hp0 : ∀ row ∈ db.launchpads, row.spacex_id ≠ none)
    (hnr : (db.rockets.filterMap RocketRow.spacex_id).Nodup)
    (hnp : (db.launchpads.filterMap PadRow.spacex_id).Nodup) :
    ((load_dimension_tables db R P).2.1 none = none ∧
     (load_dimension_tables db R P).2.2 none = none) ∧
    (∀ p ∈ R, ∃ k, (load_dimension_tables db R P).2.1 (some p.1) = some k ∧
      ∃ row ∈ (load_dimension_tables db R P).1.rockets,
        row.spacex_id = some p.1 ∧ row.id = k) ∧
    (∀ p ∈ P, ∃ k, (load_dimension_tables db R P).2.2 (some p.1) = some k ∧
      ∃ row ∈ (load_dimension_tables db R P).1.launchpads,
        row.spacex_id = some p.1 ∧ row.id = k) ∧
    (∀ (tbl : List LaunchRow) (l : LaunchRec),
      (∀ s, l.id = some s → ∀ row ∈ tbl, row.spacex_id ≠ some s) →
      insertLaunch (load_dimension_tables db R P).2.1
          (load_dimension_tables db R P).2.2 tbl l =
        tbl ++ [mkLaunchRow (load_dimension_tables db R P).2.1
          (load_dimension_tables db R P).2.2 tbl l] ∧
      (mkLaunchRow (load_dimension_tables db R P).2.1
          (load_dimension_tables db R P).2.2 tbl l).rocket_id =
        (load_dimension_tables db R P).2.1 l.rocket ∧
      (mkLaunchRow (load_dimension_tables db R P).2.1
          (load_dimension_tables db R P).2.2 tbl l).launchpad_id =
        (load_dimension_tables db R P).2.2 l.launchpad) := by
  have hndr : ((dimLoad RocketRow.spacex_id mkRocketRow db.rockets
      R).filterMap RocketRow.spacex_id).Nodup :=
    dimLoad_nodupSid mkRocketRow_sid R db.rockets hnr
  have hndp : ((dimLoad PadRow.spacex_id mkPadRow db.launchpads
      P).filterMap PadRow.spacex_id).Nodup :=
    dimLoad_nodupSid mkPadRow_sid P db.launchpads hnp
  refine ⟨⟨rocketKeyMap_none (dimLoad_noNull mkRocketRow_sid hr0),
           padKeyMap_none (dimLoad_noNull mkPadRow_sid hp0)⟩, ?_, ?_, ?_⟩
  · intro p hp
    obtain ⟨row, hrow, hs⟩ :=
      dimLoad_covers mkRocketRow_sid R db.rockets p.1 p.2 (by simpa using hp)
    exact ⟨row.id, rocketKeyMap_eq hndr hrow hs, row, hrow, hs, rfl⟩
  · intro p hp
    obtain ⟨row, hrow, hs⟩ :=
      dimLoad_covers mkPadRow_sid P db.launchpads p.1 p.2 (by simpa using hp)
    exact ⟨row.id, padKeyMap_eq hndp hrow hs, row, hrow, hs, rfl⟩
  · intro tbl l hno
    refine ⟨?_, rfl, rfl⟩
    cases hid : l.id with
    | none => exact insertLaunch_ins_of_none hid
    | some s => exact insertLaunch_ins_of_some hid (hno s hid)

/-- C1 witness: one fetched rocket "r1", no launchpads; a fact referencing
rocket "r1" and an unfetched launchpad "zz" is inserted with rocket foreign
key resolved and launchpad foreign key NULL. -/
theorem c1_fact_fk_resolution_witness :
    ((load_dimension_tables DB.empty [("r1", ⟨none, none, none⟩)] []).2.1
        none = none ∧
     (load_dimension_tables DB.empty [("r1", ⟨none, none, none⟩)] []).2.2
        none = none) ∧
    (∃ k, (load_dimension_tables DB.empty [("r1", ⟨none, none, none⟩)]
        []).2.1 (some "r1") = some k ∧
      ∃ row ∈ (load_dimension_tables DB.empty [("r1", ⟨none, none, none⟩)]
          []).1.rockets, row.spacex_id = some "r1" ∧ row.id = k) ∧
    (insertLaunch
        (load_dimension_tables DB.empty [("r1", ⟨none, none, none⟩)] []).2.1
        (load_dimension_tables DB.empty [("r1", ⟨none, none, none⟩)] []).2.2
        [] ⟨some "a", none, none, none, some "r1", some "zz", none⟩ =
      [] ++ [mkLaunchRow
        (load_dimension_tables DB.empty [("r1", ⟨none, none, none⟩)] []).2.1
        (load_dimension_tables DB.empty [("r1", ⟨none, none, none⟩)] []).2.2
        [] ⟨some "a", none, none, none, some "r1", some "zz", none⟩]) ∧
    (load_dimension_tables DB.empty [("r1", ⟨none, none, none⟩)] []).2.1
      (some "r1") = some 1 ∧
    (load_dimension_tables DB.empty [("r1", ⟨none, none, none⟩)] []).2.2
      (some "zz") = none :=
  ⟨(c1_fact_fk_resolution DB.empty [("r1", ⟨none, none, none⟩)] []
      (by simp [DB.empty]) (by simp [DB.empty]) (by simp [DB.empty])
      (by simp [DB.empty])).1,
   (c1_fact_fk_resolution DB.empty [("r1", ⟨none, none, none⟩)] []
      (by simp [DB.empty]) (by simp [DB.empty]) (by simp [DB.empty])
      (by simp [DB.empty])).2.1 ("r1", ⟨none, none, none⟩) (by simp),
   ((c1_fact_fk_resolution DB.empty [("r1", ⟨none, none, none⟩)] []
      (by simp [DB.empty]) (by simp [DB.empty]) (by simp [DB.empty])
      (by simp [DB.empty])).2.2.2 []
      ⟨some "a", none, none, none, some "r1", some "zz", none⟩
      (by intro s hs row hrow; exact absurd hrow (List.not_mem_nil _))).1,
   by decide, by decide⟩

lemma run_load_eq (db : DB) (L : List LaunchRec)
    (R : List (String × RocketRec)) (P : List (String × PadRec)) :
    run_load db L R P = DB.mk
      (dimLoad RocketRow.spacex_id mkRocketRow db.rockets R)
      (dimLoad PadRow.spacex_id mkPadRow db.launchpads P)
      (loadLaunchList
        (rocketKeyMap (dimLoad RocketRow.spacex_id mkRocketRow db.rockets R))
        (padKeyMap (dimLoad PadRow.spacex_id mkPadRow db.launchpads P))
        db.launches L) := rfl

/-- C2 (amended): when every fact record carries a present, non-null
natural id, re-running the full load phase against identical source data is
a no-op — every table's contents, and hence every surrogate key, are
unchanged by the second run. -/
theorem c2_rerun_noop (db : DB) (L : List LaunchRec)
    (R : List (String × RocketRec)) (P : List (String × PadRec))
    (h : ∀ l ∈ L, l.id ≠ none) :
    run_load (run_load db L R P) L R P = run_load db L R P := by
  have habsR : dimLoad RocketRow.spacex_id mkRocketRow
      (dimLoad RocketRow.spacex_id mkRocketRow db.rockets R) R =
      dimLoad RocketRow.spacex_id mkRocketRow db.rockets R :=
    dimLoad_absorb R _ fun p hp =>
      dimLoad_covers mkRocketRow_sid R db.rockets p.1 p.2 (by simpa using hp)
  have habsP : dimLoad PadRow.spacex_id mkPadRow
      (dimLoad PadRow.spacex_id mkPadRow db.launchpads P) P =
      dimLoad PadRow.spacex_id mkPadRow db.launchpads P :=
    dimLoad_absorb P _ fun p hp =>
      dimLoad_covers mkPadRow_sid P db.launchpads p.1 p.2 (by simpa using hp)
  have habsL : loadLaunchList
      (rocketKeyMap (dimLoad RocketRow.spacex_id mkRocketRow db.rockets R))
      (padKeyMap (dimLoad PadRow.spacex_id mkPadRow db.launchpads P))
      (loadLaunchList
        (rocketKeyMap (dimLoad RocketRow.spacex_id mkRocketRow db.rockets R))
        (padKeyMap (dimLoad PadRow.spacex_id mkPadRow db.launchpads P))
        db.launches L) L =
      loadLaunchList
        (rocketKeyMap (dimLoad RocketRow.spacex_id mkRocketRow db.rockets R))
        (padKeyMap (dimLoad PadRow.spacex_id mkPadRow db.launchpads P))
        db.launches L :=
    loadLaunchList_absorb L _ fun l hl => by
      obtain ⟨s, hs⟩ := Option.ne_none_iff_exists'.1 (h l hl)
      exact ⟨s, hs, loadLaunchList_covers _ _ L db.launches l s hl hs⟩
  rw [run_load_eq db L R P, run_load_eq]
  simp only
  rw [habsR, habsP, habsL]

/-- C2 counterexample: a single fact with a null natural id is re-inserted
by the second run, so the claim fails as stated (without the non-null
natural-id proviso). -/
theorem c2_counterexample :
    run_load (run_load DB.empty [⟨none, none, none, none, none, none, none⟩]
        [] []) [⟨none, none, none, none, none, none, none⟩] [] [] ≠
      run_load DB.empty [⟨none, none, none, none, none, none, none⟩] [] [] := by
  decide

/-- C2 witness: a concrete rerun with one rocket, one launchpad and one
fact with a non-null natural id is a no-op. -/
theorem c2_rerun_noop_witness :
    (∀ l ∈ [(⟨some "a", none, none, some true, some "r1", some "p1", none⟩ :
        LaunchRec)], l.id ≠ none) ∧
    run_load (run_load DB.empty
        [⟨some "a", none, none, some true, some "r1", some "p1", none⟩]
        [("r1", ⟨none, none, some true⟩)] [("p1", ⟨none, none, none, none⟩)])
        [⟨some "a", none, none, some true, some "r1", some "p1", none⟩]
        [("r1", ⟨none, none, some true⟩)] [("p1", ⟨none, none, none, none⟩)] =
      run_load DB.empty
        [⟨some "a", none, none, some true, some "r1", some "p1", none⟩]
        [("r1", ⟨none, none, some true⟩)] [("p1", ⟨none, none, none, none⟩)] :=
  ⟨by decide, c2_rerun_noop DB.empty _ _ _ (by decide)⟩
